import Mathlib

/-!
# Luma interpreter core: a shallow embedding

This file embeds the runtime core of the Luma interpreter
(`src/test/main.rs` and `src/main.rs`) in Lean 4 and proves properties of
the embedded definitions.

Modelling conventions:
* Rust `i32` is modelled as `Int`; machine casts (`as usize`, `as i32`) are
  modelled with explicit wraparound (`i32_as_usize`, `usize_as_i32`).
* Rust `f64` is modelled as `Rat` (exact values; the conditional and
  comparison logic of the source never depends on rounding, infinities or
  NaN for the inputs considered here, and `i32 as f64` is always exact).
* `HashMap<String, V>` is modelled as an association list with
  insert-at-head and first-match lookup, which has the same observable
  `insert`/`get` behaviour.
* Rust `panic!` is modelled as `Except.error (RErr.panicMsg _)`; the
  potentially non-terminating execution loop and the mutually recursive
  evaluator are modelled with an explicit fuel parameter, running out of
  fuel being the distinguished `RErr.fuelExhausted`.
* Strings in the source are ASCII in every situation considered here, so
  Rust byte indexing (`conditional[3..]`) is modelled by `String.drop`.
-/

/-- Runtime failure of the embedded interpreter: either a Rust `panic!`
(with its message) or fuel exhaustion (an artifact of the embedding). -/
inductive RErr where
  | panicMsg (msg : String)
  | fuelExhausted
deriving Repr, DecidableEq

/-- Statement verbs, from `enum Verb` in the source. -/
inductive Verb where
  | Set
  | Return
  | Mark
  | Do
deriving Repr, DecidableEq

/-- One statement: a verb plus its string operands (`struct ASTLine`). -/
structure ASTLine where
  verb : Verb
  nouns : List String
deriving Repr, DecidableEq

/-- A function body: ordered statements plus declared parameter names
(`struct AST` in `src/test/main.rs`, where `params : Vec<String>`). -/
structure AST where
  lines : List ASTLine
  params : List String
deriving Repr, DecidableEq

mutual
/-- Runtime values (`enum Value` in `src/test/main.rs`): `Int(i32)`,
`Float(f64)` (modelled as `Rat`), `Str`, `Bool`, `List`, `ASTRef`,
`Environment(Rc<Environment>)`, `Undefined`, `Null`. -/
inductive Value where
  | int (n : Int)
  | float (q : Rat)
  | str (s : String)
  | bool (b : Bool)
  | list (l : List Value)
  | astRef (a : AST)
  | envRef (e : Env)
  | undefined
  | null

/-- A scope (`struct Environment` in `src/test/main.rs`): its own
name→value map, an optional shared parent, and the import table
`dependencies : HashMap<String, String>`. -/
inductive Env where
  | mk (vars : List (String × Value)) (parent : Option Env)
       (dependencies : List (String × String))
end

namespace Env

/-- Local variable map of an environment. -/
def vars : Env → List (String × Value)
  | .mk v _ _ => v

/-- Parent pointer of an environment. -/
def parent : Env → Option Env
  | .mk _ p _ => p

/-- Import table of an environment. -/
def dependencies : Env → List (String × String)
  | .mk _ _ d => d

/-- Model of `Environment::new(parent)`: fresh empty variable map and import table. -/
def new (parent : Option Env) : Env := .mk [] parent []

/-- Model of `HashMap::insert` on the variable map (overwrites any prior binding
observably, since lookup takes the first match). -/
def bind (e : Env) (name : String) (v : Value) : Env :=
  .mk ((name, v) :: e.vars) e.parent e.dependencies

end Env

/-- First-match association-list lookup, the model of `HashMap::get`. -/
def lookupA {α : Type} (l : List (String × α)) (name : String) : Option α :=
  match l with
  | [] => none
  | (k, v) :: rest => if k = name then some v else lookupA rest name

/-- Model of `Environment::search_for_var`: check the local map, else delegate to
the parent chain, else `Undefined`.  (The source checks the local map once
and then matches on the parent; here the parent is destructured in the
top-level pattern, which is the same function.) -/
def Env.search_for_var : Env → String → Value
  | .mk vars none _, name =>
    match lookupA vars name with
    | some v => v
    | none => Value.undefined
  | .mk vars (some p) _, name =>
    match lookupA vars name with
    | some v => v
    | none => p.search_for_var name

mutual
/-- Model of `impl PartialEq for Value` (`eq`).  Same-variant structural equality,
plus the single cross-variant rule `Int`/`Float` by numeric value
(`*a as f64 == *b`, exact since `i32` embeds exactly into `f64`);
every other pair falls to the catch-all `false`. -/
def valueEq : Value → Value → Bool
  | .int a, .int b => a == b
  | .float a, .float b => a == b
  | .str a, .str b => a == b
  | .bool a, .bool b => a == b
  | .list a, .list b => valueEqList a b
  | .null, .null => true
  | .undefined, .undefined => true
  | .int a, .float b => (a : Rat) == b
  | .float a, .int b => a == (b : Rat)
  | _, _ => false

/-- Model of `Vec<Value> == Vec<Value>`: same length and element-wise equality. -/
def valueEqList : List Value → List Value → Bool
  | [], [] => true
  | x :: xs, y :: ys => valueEq x y && valueEqList xs ys
  | _, _ => false
end

mutual
/-- Model of `impl PartialOrd for Value` (the `partial_cmp` method). -/
def valueCmp : Value → Value → Option Ordering
  | .int a, .int b => some (compare a b)
  | .float a, .float b => some (compare a b)
  | .str a, .str b => some (compare a b)
  | .bool a, .bool b => some (compare a b)
  | .int a, .float b => some (compare (a : Rat) b)
  | .float a, .int b => some (compare a (b : Rat))
  | .list a, .list b =>
    if a.length ≠ b.length then
      some (compare a.length b.length)
    else
      valueCmpElems a b
  | _, _ => none

/-- The element loop of the `List` arm of `partial_cmp`: walk the zipped
elements, return the first comparison that is `Some` and not `Equal`
(incomparable element pairs are skipped), else `Some(Equal)`. -/
def valueCmpElems : List Value → List Value → Option Ordering
  | x :: xs, y :: ys =>
    match valueCmp x y with
    | some ord => if ord ≠ Ordering.eq then some ord else valueCmpElems xs ys
    | none => valueCmpElems xs ys
  | _, _ => some Ordering.eq
end

/-!
## String primitives

The source's string operations are re-implemented here by structural
recursion over the character list of the string, so that every concrete
execution of the embedding is computable by the kernel.  For the ASCII
strings manipulated by the interpreter these agree with Rust's byte-wise
`split`, `contains`, `starts_with`, `ends_with`, `trim` and slicing.
-/

/-- Worker for `rsSplitOnChar`: `acc` is the current piece, reversed. -/
def rsSplitOnCharAux (c : Char) : List Char → List Char → List String
  | [], acc => [String.mk acc.reverse]
  | a :: rest, acc =>
    if a = c then String.mk acc.reverse :: rsSplitOnCharAux c rest []
    else rsSplitOnCharAux c rest (a :: acc)

/-- Rust `str::split(c)` for a one-character separator. -/
def rsSplitOnChar (c : Char) (s : String) : List String :=
  rsSplitOnCharAux c s.data []

/-- Worker for `rsSplitOnColonColon`. -/
def rsSplitOnCCAux (c1 c2 : Char) : List Char → List Char → List String
  | [], acc => [String.mk acc.reverse]
  | [a], acc => [String.mk (a :: acc).reverse]
  | a :: b :: rest, acc =>
    if a = c1 ∧ b = c2 then
      String.mk acc.reverse :: rsSplitOnCCAux c1 c2 rest []
    else
      rsSplitOnCCAux c1 c2 (b :: rest) (a :: acc)

/-- Rust `str::split("::")` (two-character separator). -/
def rsSplitOnColonColon (s : String) : List String :=
  rsSplitOnCCAux ':' ':' s.data []

/-- Rust `str::contains(c)`. -/
def rsContains (s : String) (c : Char) : Bool :=
  s.data.contains c

/-- Rust `str::starts_with(p)`. -/
def rsStartsWith (s p : String) : Bool :=
  p.data.isPrefixOf s.data

/-- Rust `str::ends_with(p)`. -/
def rsEndsWith (s p : String) : Bool :=
  p.data.isSuffixOf s.data

/-- Rust `str::trim()`. -/
def rsTrim (s : String) : String :=
  String.mk (((s.data.dropWhile Char.isWhitespace).reverse.dropWhile
    Char.isWhitespace).reverse)

/-- Rust `str::to_lowercase()` (ASCII range). -/
def rsToLower (s : String) : String :=
  String.mk (s.data.map Char.toLower)

/-- Rust slicing `s[n..]` (ASCII: bytes coincide with characters). -/
def rsDrop (s : String) (n : Nat) : String :=
  String.mk (s.data.drop n)

/-- Character count (= byte count for the ASCII strings involved). -/
def rsLength (s : String) : Nat :=
  s.data.length

/-- Decimal digit run to a number: `none` unless nonempty and all digits. -/
def digitsToNat : List Char → Option Nat
  | [] => none
  | cs => go cs 0
where
  go : List Char → Nat → Option Nat
    | [], acc => some acc
    | c :: rest, acc =>
      if c.isDigit then go rest (acc * 10 + (c.toNat - '0'.toNat))
      else none

/-- Rust `str::parse::<i32>()`: optional sign, decimal digits, `i32` range. -/
def rustParseInt (s : String) : Option Int :=
  let (neg, digits) :=
    if rsStartsWith s "-" then (true, (s.data.drop 1))
    else if rsStartsWith s "+" then (false, (s.data.drop 1))
    else (false, s.data)
  match digitsToNat digits with
  | some n =>
    let v : Int := if neg then -(n : Int) else (n : Int)
    if -(2 ^ 31) ≤ v ∧ v < 2 ^ 31 then some v else none
  | none => none

/-- Rust `str::parse::<f64>()`, restricted to plain decimal notation
(optional sign, digits, optional fractional part), read exactly into `Rat`.
Exponent, `inf` and `nan` forms are outside this model; no claim
considered here exercises them. -/
def rustParseFloat (s : String) : Option Rat :=
  let (neg, t) :=
    if rsStartsWith s "-" then (true, rsDrop s 1)
    else if rsStartsWith s "+" then (false, rsDrop s 1)
    else (false, s)
  let mk (q : Rat) : Rat := if neg then -q else q
  match rsSplitOnChar '.' t with
  | [i] => (digitsToNat i.data).map (fun n => mk n)
  | [i, f] =>
    if i = "" ∧ f = "" then none
    else
      match (if i = "" then some 0 else digitsToNat i.data),
            (if f = "" then some 0 else digitsToNat f.data) with
      | some a, some b =>
        some (mk ((a : Rat) + (b : Rat) / ((10 : Rat) ^ f.data.length)))
      | _, _ => none
  | _ => none

namespace Value

/-- Model of `Value::parse_int`. -/
def parse_int (input : String) : Option Value :=
  (rustParseInt input).map Value.int

/-- Model of `Value::parse_float`. -/
def parse_float (input : String) : Option Value :=
  (rustParseFloat input).map Value.float

/-- Model of `Value::parse_str`. -/
def parse_str (input : String) : Option Value :=
  some (Value.str input)

/-- Model of `Value::parse_bool`. -/
def parse_bool (input : String) : Option Value :=
  match rsToLower input with
  | "true" => some (Value.bool true)
  | "false" => some (Value.bool false)
  | _ => none

/-- Model of `Value::parse` from `src/main.rs` (lines 187–199).  The source computes
the per-type `Option<Value>` and then discards it (the `match` expression
is terminated by `;`), so every known type tag flows to the trailing
`Value::Null`; only an unknown tag panics. -/
def parse (input : String) (type_of : String) : Except RErr Value :=
  match type_of with
  | "int" => let _ := parse_int input; .ok Value.null
  | "str" => let _ := parse_str input; .ok Value.null
  | "float" => let _ := parse_float input; .ok Value.null
  | "bool" => let _ := parse_bool input; .ok Value.null
  | _ => .error (.panicMsg ("Unknown type " ++ type_of))

end Value

/-- Rust `i32 as usize` (64-bit target): sign-extend and reinterpret. -/
def i32_as_usize (n : Int) : Nat := (n % 2 ^ 64).toNat

/-- Rust `usize as i32`: truncate to 32 bits, reinterpret as signed. -/
def usize_as_i32 (n : Nat) : Int := ((n : Int) + 2 ^ 31) % 2 ^ 32 - 2 ^ 31

/-- The marker-resolution `for` loop of `ASTRunner::run`: walk the given
statements with a running count `acc` of non-`Mark` statements; at the
first `Mark` whose name equals `name`, yield the count (`Ok (some acc)`);
a `Mark` with a different name is passed over without counting; a `Mark`
with no operand panics; if no matching `Mark` exists, yield `Ok none`
(in the source the loop simply ends and `index` is left unchanged). -/
def markerScanAux (name : String) : List ASTLine → Nat → Except RErr (Option Nat)
  | [], _ => .ok none
  | l :: rest, acc =>
    match l.verb with
    | .Mark =>
      match l.nouns.get? 0 with
      | none => .error (.panicMsg "Marker without name")
      | some n => if n = name then .ok (some acc) else markerScanAux name rest acc
    | _ => markerScanAux name rest (acc + 1)

/-- Marker scan starting with count zero. -/
def markerScan (lines : List ASTLine) (name : String) : Except RErr (Option Nat) :=
  markerScanAux name lines 0

/-- The mutable local state of `check_conditional`'s token loop. -/
structure CondState where
  final_result : Bool
  check_type : Option String
  check_obj : Option Value
  upper_check : Option String
  tag : Option String
  current : Bool

/-- Model of `let upper_checks = ["and", "or"];` — the combinator keywords the token
classifier of `check_conditional` recognizes. -/
def upper_checks : List String := ["and", "or"]

/-- Model of `let tags = ["not"];` from the source. -/
def tagKeywords : List String := ["not"]

/-- The combinator-application `match upper_check { ... }` at the end of a
completed comparison in `check_conditional`: no pending combinator makes
the comparison the running result; `"and"`, `"or"` and `"xor"` combine;
any other value leaves the running result unchanged (`_ => {}`). -/
def applyUpper (upper_check : Option String) (final_result current : Bool) : Bool :=
  match upper_check with
  | none => current
  | some "and" => final_result && current
  | some "or" => final_result || current
  | some "xor" => final_result ^^ current
  | some _ => final_result

section EvaluatorCluster

/- The External Process Bridge (`execute_rust_program`) performs process
I/O, so the embedding abstracts it as an oracle: given the resolved file
path and the evaluated argument list, it produces the call's result or a
failure.  No property below depends on its behaviour. -/
variable (extCall : String → List Value → Except RErr Value)

mutual

/-- Model of `evaluate` (standalone, `src/test/main.rs` lines 315–473).  With an
environment present: call expressions (text ending in `)`) go to the call
branch; otherwise a variable lookup that yields anything but `Undefined`
is the result; otherwise (or with no environment) the text is parsed as a
literal of the declared type. -/
def evaluate (fuel : Nat) (value : String) (var_type : String)
    (env : Option Env) : Except RErr Value :=
  match fuel with
  | 0 => .error .fuelExhausted
  | fuel + 1 =>
    match env with
    | some e =>
      if rsEndsWith value ")" then
        evalCall fuel value e
      else
        let env_search := e.search_for_var value
        if valueEq env_search Value.undefined = false then
          .ok env_search
        else
          evalType fuel value var_type env
    | none => evalType fuel value var_type env

/-- The call branch of `evaluate`: split `target(args)`, split the target
on `::` into package and function name (panicking without a `::`), resolve
the package in the environment's import table, evaluate the comma-split
`value:type` arguments, then either invoke the external bridge (text
starting with `#`) or look the function up as an `ASTRef` and run it with
the caller's environment as parent.

The source line `pk_fns.functionalities.get(fn_name)` does not type-check
against `dependencies: HashMap<String, String>`; modelled from the spec:
the import table maps the alias directly to the resolved path. -/
def evalCall (fuel : Nat) (value : String) (env : Env) : Except RErr Value :=
  match fuel with
  | 0 => .error .fuelExhausted
  | fuel + 1 =>
    match rsSplitOnChar '(' value with
    | [] => .error (.panicMsg "Failed to load function reference name")
    | ref_name :: rest =>
      match rsSplitOnColonColon (rsTrim ref_name) with
      | [] => .error (.panicMsg "Failed to load package name")
      | [_] => .error (.panicMsg "Failed to load package name")
      | pk_name :: fn_name :: _ =>
        match lookupA env.dependencies pk_name with
        | none => .error (.panicMsg "Failed to load package functions")
        | some pk_fns =>
          let fn_path := pk_fns
          match rest with
          | [] => .error (.panicMsg "Failed to load parameters")
          | params :: _ => do
            let param_vec ← evalParams fuel (rsSplitOnChar ',' params) env
            if rsStartsWith value "#" then
              extCall fn_path param_vec
            else
              match env.search_for_var fn_name with
              | .astRef fn_AST =>
                runAST fuel fn_AST env ((fn_AST.params.zip param_vec).reverse)
              | _ =>
                .error (.panicMsg
                  "Attempting to execute non function value as a function")

/-- Argument evaluation of the call branch: each comma-split piece is split
on `:` into value and type (panicking when the type half is missing) and
recursively evaluated. -/
def evalParams (fuel : Nat) (ps : List String) (env : Env) :
    Except RErr (List Value) :=
  match fuel with
  | 0 => .error .fuelExhausted
  | fuel + 1 =>
    match ps with
    | [] => .ok []
    | p :: rest =>
      match rsSplitOnChar ':' p with
      | [] => .error (.panicMsg "Failed to load parameter value")
      | [_] => .error (.panicMsg "Failed to load parameter type")
      | param_value :: param_type :: _ => do
        let v ← evaluate fuel param_value param_type (some env)
        let vs ← evalParams fuel rest env
        .ok (v :: vs)

/-- The `match var_type` literal-parsing tail of `evaluate`. -/
def evalType (fuel : Nat) (value : String) (var_type : String)
    (env : Option Env) : Except RErr Value :=
  match fuel with
  | 0 => .error .fuelExhausted
  | fuel + 1 =>
    match var_type with
    | "int" =>
      match rustParseInt value with
      | some n => .ok (Value.int n)
      | none => .error (.panicMsg "invalid int literal")
    | "float" =>
      match rustParseFloat value with
      | some q => .ok (Value.float q)
      | none => .error (.panicMsg "invalid float literal")
    | "bool" =>
      if rsStartsWith value "if" then
        match env with
        | some e => (check_conditional fuel value e).map Value.bool
        | none => .error (.panicMsg "Conditional expression requires environment")
      else if value = "true" then .ok (Value.bool true)
      else if value = "false" then .ok (Value.bool false)
      else .ok Value.undefined
    | "str" => .ok (Value.str (rsTrim value))
    | "list" => (evalList fuel (rsSplitOnChar ',' value) env).map Value.list
    | "undefined" => .ok Value.undefined
    | "env" => .ok (Value.envRef (Env.new none))
    | "none" => .ok Value.null
    | _ => .ok Value.undefined

/-- The `"list"` branch's `filter_map` body: split each item on `:` and
trim the parts; with at least two parts, the FIRST part (`key`) is passed
as the declared type and the SECOND (`val`) as the text of a recursive
`evaluate` call; an item with fewer than two parts is silently skipped
(the closure yields `None`). -/
def evalList (fuel : Nat) (items : List String) (env : Option Env) :
    Except RErr (List Value) :=
  match fuel with
  | 0 => .error .fuelExhausted
  | fuel + 1 =>
    match items with
    | [] => .ok []
    | s :: rest =>
      match (rsSplitOnChar ':' s).map rsTrim with
      | key :: val :: _ => do
        let v ← evaluate fuel val key env
        let vs ← evalList fuel rest env
        .ok (v :: vs)
      | _ => evalList fuel rest env

/-- Model of `check_conditional` (standalone, `src/test/main.rs` lines 476–621):
strip the 3-byte `"if "` prefix (Rust byte slicing panics when the text is
shorter), split on single spaces, reject an empty body, then run the
single-pass token loop. -/
def check_conditional (fuel : Nat) (conditional : String) (env : Env) :
    Except RErr Bool :=
  match fuel with
  | 0 => .error .fuelExhausted
  | fuel + 1 =>
    if rsLength conditional < 3 then
      .error (.panicMsg "byte index out of bounds")
    else
      let parts := rsSplitOnChar ' ' (rsDrop conditional 3)
      if parts = [""] then
        .error (.panicMsg ("Conditional without body: '" ++ conditional ++ "'"))
      else
        condLoop fuel env parts
          ⟨false, none, none, none, none, false⟩

/-- One comparison arm of the token loop: split the right-hand token on
`:` (exactly two parts, else panic), evaluate it, then apply the given
comparison against the held left operand (`unwrap` panics when no left
operand is held). -/
def condCompare (fuel : Nat) (env : Env) (part : String)
    (check_obj : Option Value) (cmp : Value → Value → Bool) :
    Except RErr Bool :=
  match fuel with
  | 0 => .error .fuelExhausted
  | fuel + 1 =>
    match rsSplitOnChar ':' part with
    | [val, var_type] => do
      let right_value ← evaluate fuel val var_type (some env)
      match check_obj with
      | some left => .ok (cmp left right_value)
      | none => .error (.panicMsg "called Option unwrap on a None value")
    | _ => .error (.panicMsg ("Typeless conditional check: '" ++ part ++ "'"))

/-- The `for part in parts` loop of `check_conditional`.  Token classes in
priority order: comparison operator (contains `=`/`<`/`>`), combinator
keyword (`upper_checks`), `not` tag, left operand (no operator pending),
right operand completing a comparison.  After a completed comparison the
pending `not` flips the result, and the pending combinator folds it into
the running result (the combinator is NOT cleared afterwards; only the
operator and left operand are). -/
def condLoop (fuel : Nat) (env : Env) (parts : List String)
    (st : CondState) : Except RErr Bool :=
  match fuel with
  | 0 => .error .fuelExhausted
  | fuel + 1 =>
    match parts with
    | [] => .ok st.final_result
    | part :: rest =>
      if rsContains part '=' || rsContains part '<' || rsContains part '>' then
        condLoop fuel env rest { st with check_type := some part }
      else if upper_checks.contains part then
        condLoop fuel env rest { st with upper_check := some part }
      else if tagKeywords.contains part then
        condLoop fuel env rest { st with tag := some part }
      else if st.check_type.isNone && !(rsContains part '=')
              && !(rsContains part '<') && !(rsContains part '>') then
        match rsSplitOnChar ':' part with
        | [val, var_type] => do
          let v ← evaluate fuel val var_type (some env)
          condLoop fuel env rest { st with check_obj := some v }
        | _ => .error (.panicMsg ("Typeless conditional object: '" ++ part ++ "'"))
      else do
        let res : Bool × Option String × Option Value ←
          match st.check_type with
          | some "==" =>
            (condCompare fuel env part st.check_obj
              (fun l r => valueEq l r)).map (fun c => (c, none, none))
          | some "<=" =>
            (condCompare fuel env part st.check_obj
              (fun l r =>
                match valueCmp l r with
                | some ord => ord != Ordering.gt
                | none => false)).map (fun c => (c, none, none))
          | some ">=" =>
            (condCompare fuel env part st.check_obj
              (fun l r =>
                match valueCmp l r with
                | some ord => ord != Ordering.lt
                | none => false)).map (fun c => (c, none, none))
          | some "<" =>
            (condCompare fuel env part st.check_obj
              (fun l r =>
                match valueCmp l r with
                | some ord => ord == Ordering.lt
                | none => false)).map (fun c => (c, none, none))
          | some ">" =>
            (condCompare fuel env part st.check_obj
              (fun l r =>
                match valueCmp l r with
                | some ord => ord == Ordering.gt
                | none => false)).map (fun c => (c, none, none))
          | _ => .ok (st.current, st.check_type, st.check_obj)
        let (current0, check_type', check_obj') := res
        let current1 := if st.tag == some "not" then !current0 else current0
        let final' := applyUpper st.upper_check st.final_result current1
        condLoop fuel env rest
          ⟨final', check_type', check_obj', st.upper_check, none, current1⟩

/-- Model of `ASTRunner::run` (`src/test/main.rs` lines 969–1083): fresh child
environment whose parent is the caller-supplied environment and whose
variable map is pre-populated with the parameter bindings, then the
statement loop from index 0. -/
def runAST (fuel : Nat) (ast : AST) (parent_env : Env)
    (params : List (String × Value)) : Except RErr Value :=
  match fuel with
  | 0 => .error .fuelExhausted
  | fuel + 1 =>
    runLoop fuel ast.lines (Env.mk params (some parent_env) []) 0

/-- The `while let Some(line) = lines.get(index)` statement loop of
`ASTRunner::run`.  `Set` evaluates and binds, `Return` evaluates and
terminates, `Mark` binds its name to the current index, `Do` evaluates its
condition (the `evaluate`-as-bool path first, falling back to
`check_conditional`) and, when taken, resolves its target: `~name` reads
the frame-local binding as the new absolute index (resuming without the
implicit advance), `*name` scans the whole sequence and adds the count to
the index (resuming without the implicit advance), and an unprefixed name
scans forward from the current index and adds the count — after which the
loop-bottom `index += 1` still applies. -/
def runLoop (fuel : Nat) (lines : List ASTLine) (env : Env) (index : Nat) :
    Except RErr Value :=
  match fuel with
  | 0 => .error .fuelExhausted
  | fuel + 1 =>
    match lines.get? index with
    | none => .ok Value.undefined
    | some line =>
      match line.verb with
      | .Set =>
        match line.nouns.get? 0, line.nouns.get? 1, line.nouns.get? 2 with
        | some var_name, some var_type, some val => do
          let v ← evaluate fuel val var_type (some env)
          runLoop fuel lines (env.bind var_name v) (index + 1)
        | _, _, _ => .error (.panicMsg "called Option unwrap on a None value")
      | .Return =>
        match line.nouns.get? 0, line.nouns.get? 1 with
        | some val, some val_type => evaluate fuel val val_type (some env)
        | _, _ => .error (.panicMsg "called Option unwrap on a None value")
      | .Mark =>
        match line.nouns.get? 0 with
        | some marker_name =>
          runLoop fuel lines
            (env.bind marker_name (Value.int (usize_as_i32 index))) (index + 1)
        | none => .error (.panicMsg "called Option unwrap on a None value")
      | .Do =>
        match line.nouns.get? 0, line.nouns.get? 1 with
        | some marker_name, some conditional => do
          let c ← evaluate fuel conditional "bool" (some env)
          let taken ←
            if valueEq c (Value.bool true) then
              pure true
            else
              check_conditional fuel conditional env
          if taken then
            if rsStartsWith marker_name "~" then
              match lookupA env.vars (rsDrop marker_name 1) with
              | some (.int v) => runLoop fuel lines env (i32_as_usize v)
              | _ =>
                .error (.panicMsg "Provided marker points to a non integer index")
            else if rsStartsWith marker_name "*" then
              match markerScan lines marker_name with
              | .error e => .error e
              | .ok (some k) => runLoop fuel lines env (index + k)
              | .ok none => runLoop fuel lines env index
            else
              match markerScan (lines.drop index) marker_name with
              | .error e => .error e
              | .ok (some k) => runLoop fuel lines env (index + k + 1)
              | .ok none => runLoop fuel lines env (index + 1)
          else
            runLoop fuel lines env (index + 1)
        | _, _ => .error (.panicMsg "called Option unwrap on a None value")

end

end EvaluatorCluster

namespace SrcMain

/-!
The deliverable interpreter `src/main.rs` carries its own evaluator as
methods of `ASTRunner` (lines 549–733).  Its `Environment` has no import
table, its `evaluate` takes a mandatory environment, handles `"none"`
before anything else, has no call or list branches, and falls back to a
second (necessarily `Undefined`) lookup when an int/float literal fails to
parse.  `src/main.rs`'s `Value` additionally carries a dead
`FunctionRef(Box<dyn CloneFn>)` variant that is never constructed,
compared or called; the shared `Value` type above omits it.
-/

/-- Model of `struct Environment` of `src/main.rs` (lines 246–250): local map and
optional parent, no import table. -/
inductive Environment where
  | mk (vars : List (String × Value)) (parent : Option Environment)

/-- Local variable map. -/
def Environment.vars : Environment → List (String × Value)
  | .mk v _ => v

/-- Model of `Environment::search_for_var` of `src/main.rs` (lines 261–274), with
the parent destructured in the top-level pattern as above. -/
def Environment.search_for_var : Environment → String → Value
  | .mk vars none, name =>
    match lookupA vars name with
    | some v => v
    | none => Value.undefined
  | .mk vars (some p), name =>
    match lookupA vars name with
    | some v => v
    | none => p.search_for_var name

mutual

/-- Model of `ASTRunner::evaluate` (`src/main.rs` lines 549–586): early-return
`Null` for the text `"none"`; then a lookup that yields anything but
`Undefined` is the result; otherwise parse per declared type, where a
failed int/float parse re-looks the text up (yielding `Undefined` again)
and a non-literal bool goes to `check_conditional`. -/
def evaluate (fuel : Nat) (value : String) (var_type : String)
    (env : Environment) : Except RErr Value :=
  match fuel with
  | 0 => .error .fuelExhausted
  | fuel + 1 =>
    if value = "none" then .ok Value.null
    else
      match env.search_for_var value with
      | .undefined =>
        match var_type with
        | "int" =>
          match rustParseInt value with
          | some n => .ok (Value.int n)
          | none => .ok (env.search_for_var value)
        | "float" =>
          match rustParseFloat value with
          | some q => .ok (Value.float q)
          | none => .ok (env.search_for_var value)
        | "bool" =>
          if value = "true" then .ok (Value.bool true)
          else if value = "false" then .ok (Value.bool false)
          else
            let _ := env.search_for_var value
            (check_conditional fuel value env).map Value.bool
        | _ => .ok Value.undefined
      | v => .ok v

/-- Model of `ASTRunner::check_conditional` (`src/main.rs` lines 588–733) — same
token loop as the standalone version, wired to `ASTRunner::evaluate`. -/
def check_conditional (fuel : Nat) (conditional : String)
    (env : Environment) : Except RErr Bool :=
  match fuel with
  | 0 => .error .fuelExhausted
  | fuel + 1 =>
    if rsLength conditional < 3 then
      .error (.panicMsg "byte index out of bounds")
    else
      let parts := rsSplitOnChar ' ' (rsDrop conditional 3)
      if parts = [""] then
        .error (.panicMsg ("Conditional without body: '" ++ conditional ++ "'"))
      else
        condLoop fuel env parts ⟨false, none, none, none, none, false⟩

/-- One comparison arm of the `src/main.rs` token loop. -/
def condCompare (fuel : Nat) (env : Environment) (part : String)
    (check_obj : Option Value) (cmp : Value → Value → Bool) :
    Except RErr Bool :=
  match fuel with
  | 0 => .error .fuelExhausted
  | fuel + 1 =>
    match rsSplitOnChar ':' part with
    | [val, var_type] => do
      let right_value ← evaluate fuel val var_type env
      match check_obj with
      | some left => .ok (cmp left right_value)
      | none => .error (.panicMsg "called Option unwrap on a None value")
    | _ => .error (.panicMsg ("Typeless conditional check: '" ++ part ++ "'"))

/-- The token loop of `ASTRunner::check_conditional`. -/
def condLoop (fuel : Nat) (env : Environment) (parts : List String)
    (st : CondState) : Except RErr Bool :=
  match fuel with
  | 0 => .error .fuelExhausted
  | fuel + 1 =>
    match parts with
    | [] => .ok st.final_result
    | part :: rest =>
      if rsContains part '=' || rsContains part '<' || rsContains part '>' then
        condLoop fuel env rest { st with check_type := some part }
      else if upper_checks.contains part then
        condLoop fuel env rest { st with upper_check := some part }
      else if tagKeywords.contains part then
        condLoop fuel env rest { st with tag := some part }
      else if st.check_type.isNone && !(rsContains part '=')
              && !(rsContains part '<') && !(rsContains part '>') then
        match rsSplitOnChar ':' part with
        | [val, var_type] => do
          let v ← evaluate fuel val var_type env
          condLoop fuel env rest { st with check_obj := some v }
        | _ => .error (.panicMsg ("Typeless conditional object: '" ++ part ++ "'"))
      else do
        let res : Bool × Option String × Option Value ←
          match st.check_type with
          | some "==" =>
            (condCompare fuel env part st.check_obj
              (fun l r => valueEq l r)).map (fun c => (c, none, none))
          | some "<=" =>
            (condCompare fuel env part st.check_obj
              (fun l r =>
                match valueCmp l r with
                | some ord => ord != Ordering.gt
                | none => false)).map (fun c => (c, none, none))
          | some ">=" =>
            (condCompare fuel env part st.check_obj
              (fun l r =>
                match valueCmp l r with
                | some ord => ord != Ordering.lt
                | none => false)).map (fun c => (c, none, none))
          | some "<" =>
            (condCompare fuel env part st.check_obj
              (fun l r =>
                match valueCmp l r with
                | some ord => ord == Ordering.lt
                | none => false)).map (fun c => (c, none, none))
          | some ">" =>
            (condCompare fuel env part st.check_obj
              (fun l r =>
                match valueCmp l r with
                | some ord => ord == Ordering.gt
                | none => false)).map (fun c => (c, none, none))
          | _ => .ok (st.current, st.check_type, st.check_obj)
        let (current0, check_type', check_obj') := res
        let current1 := if st.tag == some "not" then !current0 else current0
        let final' := applyUpper st.upper_check st.final_result current1
        condLoop fuel env rest
          ⟨final', check_type', check_obj', st.upper_check, none, current1⟩

end

end SrcMain

/-!
## Auxiliary definitions for the statements
-/

/-- Constructor tag of a `Value`, used to state cross-variant properties. -/
def Value.tagIdx : Value → Nat
  | .int _ => 0
  | .float _ => 1
  | .str _ => 2
  | .bool _ => 3
  | .list _ => 4
  | .astRef _ => 5
  | .envRef _ => 6
  | .undefined => 7
  | .null => 8

/-- No scope of the chain binds `name` in its local map. -/
def Env.bindsNowhere : Env → String → Bool
  | .mk vars none _, name => (lookupA vars name).isNone
  | .mk vars (some p) _, name =>
    (lookupA vars name).isNone && p.bindsNowhere name

/-- Lemma: `valueEq v Undefined` is `false` for every `v` other than `Undefined`
(the `!=` test `evaluate` uses agrees with the constructor test). -/
theorem valueEq_undefined_eq_false (v : Value) (h : v ≠ Value.undefined) :
    valueEq v Value.undefined = false := by
  cases v <;> simp_all [valueEq]

/-- A trivial external-process oracle used to close concrete statements. -/
def extStub : String → List Value → Except RErr Value :=
  fun _ _ => .error .fuelExhausted

/-- The empty root environment. -/
def emptyEnv : Env := .mk [] none []

/-!
## Claims
-/

/-- Claim C9 (code_bug evidence).  `Value::parse` of `src/main.rs` discards
the result of its per-type `match` (the match expression is terminated by
`;`) and returns the trailing `Value::Null` for every input at every known
primitive type tag, well-formed or not; it neither returns a value of the
declared variant nor fails on malformed text, even though the discarded
helper `Value::parse_int` would have produced the declared variant. -/
theorem claim_C9 :
    (∀ input, Value.parse input "int" = .ok Value.null)
    ∧ (∀ input, Value.parse input "float" = .ok Value.null)
    ∧ (∀ input, Value.parse input "str" = .ok Value.null)
    ∧ (∀ input, Value.parse input "bool" = .ok Value.null)
    ∧ Value.parse_int "3" = some (Value.int 3)
    ∧ (Value.parse "3" "int" = .ok (Value.int 3)) = False := by
  refine ⟨fun _ => rfl, fun _ => rfl, fun _ => rfl, fun _ => rfl, rfl, ?_⟩
  simp [Value.parse]

/-- Claim C7 (confirmed).  The combinator-application step of the
conditional evaluator (`applyUpper`, the `match upper_check` of the
source) recognizes `"xor"` and combines with logical XOR, while the token
classifier's keyword set `upper_checks` is exactly `["and", "or"]` and
does not contain `"xor"`; consequently a literal `xor` token is classified
as an operand, which (lacking a `:type` suffix) makes `check_conditional`
fail with the typeless-operand panic rather than treat it as a
combinator. -/
theorem claim_C7 :
    upper_checks = ["and", "or"]
    ∧ upper_checks.contains "xor" = false
    ∧ (∀ f c : Bool, applyUpper (some "xor") f c = (f ^^ c))
    ∧ (∀ f c : Bool, applyUpper (some "and") f c = (f && c))
    ∧ (∀ f c : Bool, applyUpper (some "or") f c = (f || c))
    ∧ (∀ e : Env, check_conditional extStub 8 "if xor" e
        = .error (.panicMsg "Typeless conditional object: 'xor'")) :=
  ⟨rfl, rfl, fun _ _ => rfl, fun _ _ => rfl, fun _ _ => rfl, fun _ => rfl⟩

/-- Claim C2 (confirmed).  Value equality and ordering: `Int`/`Float`
compare by exact numeric value in both directions; lists of unequal
length order by length, lists of equal length compare element-wise
(`List([1,2]) < List([1,2,3])`); every other cross-variant pair is
incomparable — equality `false`, ordering `None`. -/
theorem claim_C2 :
    (∀ (i : Int) (q : Rat),
        (valueEq (.int i) (.float q) = true ↔ (i : Rat) = q)
      ∧ (valueEq (.float q) (.int i) = true ↔ q = (i : Rat))
      ∧ (valueCmp (.int i) (.float q) = some Ordering.lt ↔ (i : Rat) < q)
      ∧ (valueCmp (.int i) (.float q) = some Ordering.eq ↔ (i : Rat) = q)
      ∧ (valueCmp (.int i) (.float q) = some Ordering.gt ↔ q < (i : Rat))
      ∧ (valueCmp (.float q) (.int i) = some Ordering.lt ↔ q < (i : Rat)))
    ∧ valueEq (.int 3) (.float 3) = true
    ∧ (∀ a b : List Value, a.length ≠ b.length →
        valueCmp (.list a) (.list b) = some (compare a.length b.length))
    ∧ valueCmp (.list [.int 1, .int 2]) (.list [.int 1, .int 2, .int 3])
        = some Ordering.lt
    ∧ (∀ (x y : Value) (a b : List Value),
        valueEq (.list (x :: a)) (.list (y :: b))
          = (valueEq x y && valueEq (.list a) (.list b)))
    ∧ valueEq (.list []) (.list []) = true
    ∧ (∀ (x y : Value) (a b : List Value), a.length = b.length →
        (∀ o : Ordering, valueCmp x y = some o → o ≠ Ordering.eq →
          valueCmp (.list (x :: a)) (.list (y :: b)) = some o)
      ∧ (valueCmp x y = some Ordering.eq →
          valueCmp (.list (x :: a)) (.list (y :: b))
            = valueCmp (.list a) (.list b)))
    ∧ (∀ v w : Value, v.tagIdx ≠ w.tagIdx →
        ¬(v.tagIdx = 0 ∧ w.tagIdx = 1) → ¬(v.tagIdx = 1 ∧ w.tagIdx = 0) →
        valueEq v w = false ∧ valueCmp v w = none) := by
  refine ⟨?_, by decide, ?_, by decide, ?_, by decide, ?_, ?_⟩
  · intro i q
    refine ⟨by simp [valueEq], by simp [valueEq], ?_, ?_, ?_, ?_⟩
    · simp [valueCmp, compare_lt_iff_lt]
    · simp [valueCmp, compare_eq_iff_eq]
    · simp [valueCmp, compare_gt_iff_gt]
    · simp [valueCmp, compare_lt_iff_lt]
  · intro a b h
    simp [valueCmp, h]
  · intro x y a b
    simp [valueEq, valueEqList]
  · intro x y a b h
    constructor
    · intro o ho hne
      simp [valueCmp, valueCmpElems, h, ho, hne]
    · intro ho
      simp [valueCmp, valueCmpElems, h, ho]
  · intro v w h h1 h2
    cases v <;> cases w <;> simp_all [valueEq, valueCmp, Value.tagIdx]

/-- Witness for C2: the cross-variant clause at `Str`/`Bool`, and the
length-ordering clause at concrete lists. -/
theorem claim_C2_witness :
    (valueEq (.str "a") (.bool true) = false ∧ valueCmp (.str "a") (.bool true) = none)
    ∧ valueCmp (.list [.int 1]) (.list []) = some (compare 1 0) :=
  ⟨claim_C2.2.2.2.2.2.2.2 (.str "a") (.bool true) (by decide) (by decide) (by decide),
   claim_C2.2.2.1 [.int 1] [] (by decide)⟩

/-- Unfolding equation for `search_for_var` at a child scope. -/
theorem Env.search_for_var_child (vars : List (String × Value)) (p : Env)
    (deps : List (String × String)) (name : String) :
    Env.search_for_var (.mk vars (some p) deps) name =
      match lookupA vars name with
      | some v => v
      | none => p.search_for_var name := rfl

/-- Unfolding equation for `search_for_var` at the root scope. -/
theorem Env.search_for_var_root (vars : List (String × Value))
    (deps : List (String × String)) (name : String) :
    Env.search_for_var (.mk vars none deps) name =
      match lookupA vars name with
      | some v => v
      | none => Value.undefined := rfl

/-- Lemma: `bindsNowhere` implies the whole chain resolves to `Undefined`. -/
theorem Env.bindsNowhere_search : ∀ (e : Env) (name : String),
    e.bindsNowhere name = true → e.search_for_var name = Value.undefined
  | .mk vars none _, name, h => by
    rw [Env.search_for_var_root]
    rw [Env.bindsNowhere] at h
    cases hl : lookupA vars name with
    | some v => rw [hl] at h; simp at h
    | none => rfl
  | .mk vars (some p) _, name, h => by
    rw [Env.search_for_var_child]
    rw [Env.bindsNowhere] at h
    cases hl : lookupA vars name with
    | some v => rw [hl] at h; simp at h
    | none =>
      rw [hl] at h
      simp only [Option.isNone_none, Bool.true_and] at h
      exact Env.bindsNowhere_search p name h

/-- Claim C5 (confirmed).  Lookup returns the binding of the nearest scope
that defines the name: a local hit wins regardless of the parent (so a
child binding shadows an identical parent name), a local miss delegates to
the parent chain, binding in a child neither changes the child's parent
link nor the parent's own resolution, and a name bound nowhere in the
chain resolves to `Undefined` rather than an error. -/
theorem claim_C5 :
    (∀ vars p deps name v, lookupA vars name = some v →
      Env.search_for_var (.mk vars p deps) name = v)
    ∧ (∀ vars p deps name, lookupA vars name = none →
      Env.search_for_var (.mk vars (some p) deps) name = p.search_for_var name)
    ∧ (∀ (parentEnv : Env) vars deps x v w, parentEnv.search_for_var x = w →
        Env.search_for_var (Env.bind (.mk vars (some parentEnv) deps) x v) x = v
        ∧ (Env.bind (.mk vars (some parentEnv) deps) x v).parent = some parentEnv
        ∧ parentEnv.search_for_var x = w)
    ∧ (∀ (e : Env) (name : String), e.bindsNowhere name = true →
        e.search_for_var name = Value.undefined) := by
  refine ⟨?_, ?_, ?_, Env.bindsNowhere_search⟩
  · intro vars p deps name v h
    cases p with
    | none => rw [Env.search_for_var_root, h]
    | some p => rw [Env.search_for_var_child, h]
  · intro vars p deps name h
    rw [Env.search_for_var_child, h]
  · intro parentEnv vars deps x v w h
    refine ⟨?_, rfl, h⟩
    rw [Env.bind]
    simp only [Env.vars, Env.parent, Env.dependencies]
    rw [Env.search_for_var_child]
    simp [lookupA]

/-- Witness for C5: shadowing at a concrete two-level chain — the child's
binding of `"x"` is returned while the parent still resolves `"x"` to its
own value. -/
theorem claim_C5_witness :
    Env.search_for_var
        (Env.bind (.mk [] (some (.mk [("x", Value.int 1)] none [])) []) "x"
          (Value.int 2)) "x" = Value.int 2
    ∧ Env.search_for_var (.mk [("x", Value.int 1)] none []) "x" = Value.int 1 :=
  ⟨(claim_C5.2.2.1 (.mk [("x", Value.int 1)] none []) [] [] "x" (Value.int 2)
      (Value.int 1) rfl).1,
   (claim_C5.2.2.1 (.mk [("x", Value.int 1)] none []) [] [] "x" (Value.int 2)
      (Value.int 1) rfl).2.2⟩

/-- Reduction of a bind over `Except.ok`, used to normalize concrete runs. -/
theorem except_bind_ok {ε α β : Type} (a : α) (f : α → Except ε β) :
    (Except.ok a >>= f) = f a := rfl

/-- Reduction of a bind over `Except.error`, used to normalize concrete runs. -/
theorem except_bind_err {ε α β : Type} (e : ε) (f : α → Except ε β) :
    ((Except.error e : Except ε α) >>= f) = .error e := rfl

/-- Claim C1, counterexample.  The claim asserts the three example results in
ANY environment.  In the environment binding `"1" ↦ Int(3)`, the operand
token `1:int` resolves to the binding rather than the literal, so
`check_conditional("if 3:int == 3:int and 1:int > 2:int")` evaluates
`Int(3) > Int(2)` and yields `true`, not the claimed `false`. -/
theorem claim_C1_counterexample :
    check_conditional extStub 32 "if 3:int == 3:int and 1:int > 2:int"
        (.mk [("1", Value.int 3)] none []) = .ok true
    ∧ ((Except.ok true : Except RErr Bool) = .ok false) = False :=
  ⟨rfl, by simp⟩

/-- Claim C1 (corrected).  In any environment in which the operand texts
`"1"`, `"2"`, `"3"` are unbound (lookup yields `Undefined`) — in
particular the empty environment — the single-pass evaluation yields
`true` for `"if 3:int == 3:int"`, `false` for
`"if 3:int == 3:int and 1:int > 2:int"` and `true` for
`"if not 1:int == 2:int"`. -/
theorem claim_C1_amended (ext : String → List Value → Except RErr Value)
    (env : Env)
    (h1 : env.search_for_var "1" = Value.undefined)
    (h2 : env.search_for_var "2" = Value.undefined)
    (h3 : env.search_for_var "3" = Value.undefined) :
    check_conditional ext 32 "if 3:int == 3:int" env = .ok true
    ∧ check_conditional ext 32 "if 3:int == 3:int and 1:int > 2:int" env
        = .ok false
    ∧ check_conditional ext 32 "if not 1:int == 2:int" env = .ok true := by
  refine ⟨?_, ?_, ?_⟩ <;>
    (simp [check_conditional, condLoop, condCompare, evaluate, evalType,
      h1, h2, h3, valueEq, valueCmp, rsSplitOnChar, rsSplitOnCharAux,
      rsDrop, rsLength, rsContains, rsEndsWith, rsStartsWith,
      List.isSuffixOf, List.isPrefixOf, except_bind_ok, except_bind_err,
      upper_checks, tagKeywords, applyUpper, rustParseInt, digitsToNat,
      digitsToNat.go, lookupA, compare]
     ; rfl)

/-- Witness for C1: the amended statement at the empty environment. -/
theorem claim_C1_witness :
    check_conditional extStub 32 "if 3:int == 3:int" emptyEnv = .ok true
    ∧ check_conditional extStub 32 "if 3:int == 3:int and 1:int > 2:int"
        emptyEnv = .ok false
    ∧ check_conditional extStub 32 "if not 1:int == 2:int" emptyEnv
        = .ok true :=
  claim_C1_amended extStub emptyEnv rfl rfl rfl

/-- The branch condition of a `Do` statement holds: `evaluate` at type
`"bool"` yields a value `== Bool(true)`, or it yields something else and
the `check_conditional` fallback yields `true` (the source tries both,
short-circuiting on the first). -/
def DoTaken (ext : String → List Value → Except RErr Value) (fuel : Nat)
    (cond : String) (e : Env) : Prop :=
  ∃ v, evaluate ext fuel cond "bool" (some e) = .ok v ∧
    (valueEq v (Value.bool true) = true ∨
     (valueEq v (Value.bool true) = false ∧
      check_conditional ext fuel cond e = .ok true))

/-- Taken forward jump whose `Mark L` is skipped by the extra advance:
`Do` at 0, `Mark L` at 1, `Return L` at 2. -/
def demoJump : List ASTLine :=
  [⟨.Do, ["L", "if 1:int == 1:int"]⟩, ⟨.Mark, ["L"]⟩, ⟨.Return, ["L", "int"]⟩]

/-- Claim C3, counterexample.  Running `demoJump` from index 0: the taken
unprefixed `Do` scans forward (count 1 up to `Mark L`), adds the count,
and then the loop-bottom `index += 1` ALSO applies, so the loop resumes at
index 2 — not at index 1 = 0 + count as the claim states.  The two resume
points are observably different: resuming at 1 executes `Mark L` and
returns `Int(1)`, while the actual resume at 2 skips the `Mark` and
panics trying to parse the unbound `"L"` as an int. -/
theorem claim_C3_counterexample :
    runLoop extStub 32 demoJump emptyEnv 0
      = runLoop extStub 31 demoJump emptyEnv 2
    ∧ (runLoop extStub 31 demoJump emptyEnv 2
        = runLoop extStub 31 demoJump emptyEnv 1) = False := by
  refine ⟨rfl, ?_⟩
  simp [show runLoop extStub 31 demoJump emptyEnv 2
          = .error (.panicMsg "invalid int literal") from rfl,
        show runLoop extStub 31 demoJump emptyEnv 1
          = .ok (Value.int 1) from rfl]

/-- Claim C3 (corrected).  For every taken `Do` whose unprefixed target has
a matching `Mark` in the remaining statements: the runner scans forward
from the current index counting non-`Mark` statements, adds that count to
the index, and then the implicit `+1` advance of the loop bottom STILL
occurs (there is no `continue` in this arm), so the loop resumes at
`index + count + 1`. -/
theorem claim_C3_amended (ext : String → List Value → Except RErr Value)
    (fuel : Nat) (lines : List ASTLine) (e : Env) (i k : Nat)
    (name cond : String)
    (hline : lines[i]? = some ⟨.Do, [name, cond]⟩)
    (h1 : rsStartsWith name "~" = false)
    (h2 : rsStartsWith name "*" = false)
    (htaken : DoTaken ext fuel cond e)
    (hscan : markerScan (lines.drop i) name = .ok (some k)) :
    runLoop ext (fuel + 1) lines e i = runLoop ext fuel lines e (i + k + 1) := by
  obtain ⟨v, hv, htt | ⟨hff, hcc⟩⟩ := htaken <;>
    simp [runLoop, hline, hv, h1, h2, hscan, except_bind_ok, *]

/-- Witness for C3: the amended statement at `demoJump`, index 0, where
the scan count is 1, so the loop resumes at 0 + 1 + 1. -/
theorem claim_C3_witness :
    runLoop extStub 32 demoJump emptyEnv 0
      = runLoop extStub 31 demoJump emptyEnv (0 + 1 + 1) :=
  claim_C3_amended extStub 31 demoJump emptyEnv 0 1 "L" "if 1:int == 1:int"
    rfl rfl rfl ⟨Value.bool true, rfl, Or.inl rfl⟩ rfl

/-- Claim C4 (confirmed).  Taken `Do` with target `"~lbl"`: if the current
frame's local map binds `lbl` to `Int(n)` with `n` a recorded statement
index (`0 ≤ n < 2³¹`), the program counter becomes exactly `n` with no
implicit advance; if the local binding is missing or not an `Int`, the run
fails with the runtime panic.  `Mark` itself binds its name to the current
index in the frame's map, a fresh binding shadowing (observably
overwriting) any earlier one. -/
theorem claim_C4 :
    (∀ ext fuel lines (e : Env) i (m : Nat) name cond,
      lines[i]? = some ⟨Verb.Do, [name, cond]⟩ →
      rsStartsWith name "~" = true →
      lookupA e.vars (rsDrop name 1) = some (Value.int (m : Int)) →
      m < 2 ^ 31 →
      DoTaken ext fuel cond e →
      runLoop ext (fuel + 1) lines e i = runLoop ext fuel lines e m)
    ∧ (∀ ext fuel lines (e : Env) i name cond,
      lines[i]? = some ⟨Verb.Do, [name, cond]⟩ →
      rsStartsWith name "~" = true →
      (∀ z : Int, lookupA e.vars (rsDrop name 1) ≠ some (Value.int z)) →
      DoTaken ext fuel cond e →
      runLoop ext (fuel + 1) lines e i
        = .error (.panicMsg "Provided marker points to a non integer index"))
    ∧ (∀ ext fuel lines (e : Env) i nm,
      lines[i]? = some ⟨Verb.Mark, [nm]⟩ →
      runLoop ext (fuel + 1) lines e i
        = runLoop ext fuel lines (e.bind nm (Value.int (usize_as_i32 i)))
            (i + 1))
    ∧ (∀ (e : Env) nm x, lookupA (e.bind nm x).vars nm = some x) := by
  refine ⟨?_, ?_, ?_, ?_⟩
  · intro ext fuel lines e i m name cond hline h1 hbind hm htaken
    have h64 : (m : Int) < 2 ^ 64 := by
      have hle : (2 : Int) ^ 31 ≤ 2 ^ 64 := by norm_num
      exact lt_of_lt_of_le (by exact_mod_cast hm) hle
    have hmod : i32_as_usize (m : Int) = m := by
      rw [i32_as_usize, Int.emod_eq_of_lt (by positivity) h64,
        Int.toNat_natCast]
    obtain ⟨v, hv, htt | ⟨hff, hcc⟩⟩ := htaken <;>
      simp [runLoop, hline, hv, h1, hbind, hmod, except_bind_ok, *]
  · intro ext fuel lines e i name cond hline h1 hnb htaken
    obtain ⟨v, hv, htt | ⟨hff, hcc⟩⟩ := htaken <;>
      (cases hl : lookupA e.vars (rsDrop name 1) with
       | none => simp [runLoop, hline, hv, h1, hl, except_bind_ok, *]
       | some w =>
         cases w <;> first
           | exact absurd hl (hnb _)
           | simp [runLoop, hline, hv, h1, hl, except_bind_ok, *])
  · intro ext fuel lines e i nm hline
    simp [runLoop, hline]
  · intro e nm x
    simp [Env.bind, Env.vars, lookupA]

/-- Taken `Do "~L"` at index 0 in a frame binding `L ↦ Int(0)`. -/
def demoTilde : List ASTLine :=
  [⟨.Do, ["~L", "if 1:int == 1:int"]⟩]

/-- Witness for C4: the `~` jump at a concrete frame — the counter is set
to the bound index 0 with no implicit advance. -/
theorem claim_C4_witness :
    runLoop extStub 32 demoTilde (.mk [("L", Value.int 0)] none []) 0
      = runLoop extStub 31 demoTilde (.mk [("L", Value.int 0)] none []) 0 :=
  claim_C4.1 extStub 31 demoTilde (.mk [("L", Value.int 0)] none []) 0 0
    "~L" "if 1:int == 1:int" rfl rfl rfl (by decide)
    ⟨Value.bool true, rfl, Or.inl rfl⟩

/-- Claim C10 (confirmed).  A taken unprefixed `Do` whose marker scan finds
no matching `Mark` from the current index to the end leaves the index
unchanged in the scan (the loop ends without `break`), raises no error,
and the loop-bottom advance moves the counter forward by exactly 1 — a
no-op fall-through rather than an undefined-marker error. -/
theorem claim_C10 (ext : String → List Value → Except RErr Value)
    (fuel : Nat) (lines : List ASTLine) (e : Env) (i : Nat)
    (name cond : String)
    (hline : lines[i]? = some ⟨Verb.Do, [name, cond]⟩)
    (h1 : rsStartsWith name "~" = false)
    (h2 : rsStartsWith name "*" = false)
    (htaken : DoTaken ext fuel cond e)
    (hscan : markerScan (lines.drop i) name = .ok none) :
    runLoop ext (fuel + 1) lines e i = runLoop ext fuel lines e (i + 1) := by
  obtain ⟨v, hv, htt | ⟨hff, hcc⟩⟩ := htaken <;>
    simp [runLoop, hline, hv, h1, h2, hscan, except_bind_ok, *]

/-- Taken `Do` whose target `Z` has no matching `Mark` anywhere after. -/
def demoNoMark : List ASTLine :=
  [⟨.Do, ["Z", "if 1:int == 1:int"]⟩, ⟨.Return, ["5", "int"]⟩]

/-- Witness for C10: the fall-through at `demoNoMark`, index 0. -/
theorem claim_C10_witness :
    runLoop extStub 32 demoNoMark emptyEnv 0
      = runLoop extStub 31 demoNoMark emptyEnv (0 + 1) :=
  claim_C10 extStub 31 demoNoMark emptyEnv 0 "Z" "if 1:int == 1:int"
    rfl rfl rfl ⟨Value.bool true, rfl, Or.inl rfl⟩ rfl

/-- Claim C6, counterexample.  `ASTRunner::evaluate` of `src/main.rs` returns
`Null` for the text `"none"` BEFORE consulting the environment, so in an
environment binding `"none" ↦ Int(5)` it does not return the binding. -/
theorem claim_C6_counterexample :
    SrcMain.evaluate 5 "none" "int" (.mk [("none", Value.int 5)] none)
      = .ok Value.null
    ∧ SrcMain.Environment.search_for_var
        (.mk [("none", Value.int 5)] none) "none" = Value.int 5
    ∧ ((Except.ok Value.null : Except RErr Value) = .ok (Value.int 5)) = False :=
  ⟨rfl, rfl, by simp⟩

/-- Claim C6 (corrected).  For every non-call text bound in the environment,
the standalone `evaluate` of `src/test/main.rs` returns the environment
binding whenever lookup yields anything other than `Undefined`; the
`ASTRunner` evaluator of `src/main.rs` does the same EXCEPT for the text
`"none"`, which it maps to `Null` before consulting the environment. -/
theorem claim_C6_amended :
    (∀ ext fuel t ty (env : Env), rsEndsWith t ")" = false →
      env.search_for_var t ≠ Value.undefined →
      evaluate ext (fuel + 1) t ty (some env) = .ok (env.search_for_var t))
    ∧ (∀ fuel t ty (env : SrcMain.Environment), t ≠ "none" →
      env.search_for_var t ≠ Value.undefined →
      SrcMain.evaluate (fuel + 1) t ty env = .ok (env.search_for_var t)) := by
  constructor
  · intro ext fuel t ty env hc hne
    have hv := valueEq_undefined_eq_false _ hne
    simp [evaluate, hc, hv]
  · intro fuel t ty env hn hne
    cases h' : env.search_for_var t with
    | undefined => exact absurd h' hne
    | int n => simp [SrcMain.evaluate, hn, h']
    | float q => simp [SrcMain.evaluate, hn, h']
    | str s => simp [SrcMain.evaluate, hn, h']
    | bool b => simp [SrcMain.evaluate, hn, h']
    | list l => simp [SrcMain.evaluate, hn, h']
    | astRef a => simp [SrcMain.evaluate, hn, h']
    | envRef e => simp [SrcMain.evaluate, hn, h']
    | null => simp [SrcMain.evaluate, hn, h']

/-- Witness for C6: both evaluators return the binding `"x" ↦ Int(7)`. -/
theorem claim_C6_witness :
    evaluate extStub 2 "x" "int" (some (.mk [("x", Value.int 7)] none []))
      = .ok (Env.search_for_var (.mk [("x", Value.int 7)] none []) "x")
    ∧ SrcMain.evaluate 2 "x" "int" (.mk [("x", Value.int 7)] none)
      = .ok (SrcMain.Environment.search_for_var
          (.mk [("x", Value.int 7)] none) "x") :=
  ⟨claim_C6_amended.1 extStub 1 "x" "int" (.mk [("x", Value.int 7)] none [])
      rfl (fun h => Value.noConfusion h),
   claim_C6_amended.2 1 "x" "int" (.mk [("x", Value.int 7)] none)
      (by simp) (fun h => Value.noConfusion h)⟩

/-- Claim C8, counterexample.  At declared type `"list"` in the empty
environment: the item `3:int` does NOT evaluate to `Int(3)` — the
`filter_map` closure passes the FIRST colon-component as the declared type
and the SECOND as the text, evaluating `evaluate("int", "3")`, which is
`Undefined`; and the colonless text `1,2` raises no `ParseError` — both
items are silently skipped, yielding an empty list. -/
theorem claim_C8_counterexample :
    evaluate extStub 32 "3:int" "list" (some emptyEnv)
      = .ok (.list [.undefined])
    ∧ ((Except.ok (Value.list [Value.undefined]) : Except RErr Value)
        = .ok (.list [.int 3])) = False
    ∧ evaluate extStub 32 "1,2" "list" (some emptyEnv) = .ok (.list []) :=
  ⟨rfl, by simp, rfl⟩

/-- Claim C8 (corrected).  For a non-call text not bound in the environment,
`evaluate` at `"list"` splits the text on every comma and filter-maps the
items: an item whose colon-split (parts trimmed) has at least two parts is
recursively evaluated with its FIRST part as the declared type and its
SECOND part as the text; an item with no `:` separator is silently
skipped, not a `ParseError`. -/
theorem claim_C8_amended :
    (∀ ext fuel v (env : Env), rsEndsWith v ")" = false →
      Env.search_for_var env v = Value.undefined →
      evaluate ext (fuel + 2) v "list" (some env)
        = (evalList ext fuel (rsSplitOnChar ',' v) (some env)).map Value.list)
    ∧ (∀ ext fuel s rest env key val others,
      (rsSplitOnChar ':' s).map rsTrim = key :: val :: others →
      evalList ext (fuel + 1) (s :: rest) env
        = do
            let x ← evaluate ext fuel val key env
            let xs ← evalList ext fuel rest env
            Except.ok (x :: xs))
    ∧ (∀ ext fuel s rest env x,
      (rsSplitOnChar ':' s).map rsTrim = [x] →
      evalList ext (fuel + 1) (s :: rest) env = evalList ext fuel rest env) := by
  refine ⟨?_, ?_, ?_⟩
  · intro ext fuel v env hc hs
    have h2 : fuel + 2 = (fuel + 1) + 1 := rfl
    rw [h2]
    simp [evaluate, evalType, hc, hs, valueEq]
  · intro ext fuel s rest env key val others h
    simp [evalList, h]
  · intro ext fuel s rest env x h
    simp [evalList, h]

/-- Witness for C8: the dispatch into the list branch on `"3:int"`, the
type/value swap on the item `"3:int"`, and the silent skip of `"1"`. -/
theorem claim_C8_witness :
    evaluate extStub 32 "3:int" "list" (some emptyEnv)
      = (evalList extStub 30 (rsSplitOnChar ',' "3:int") (some emptyEnv)).map
          Value.list
    ∧ evalList extStub 31 ["3:int"] (some emptyEnv)
        = (do
            let x ← evaluate extStub 30 "int" "3" (some emptyEnv)
            let xs ← evalList extStub 30 [] (some emptyEnv)
            Except.ok (x :: xs))
    ∧ evalList extStub 31 ["1"] (some emptyEnv)
        = evalList extStub 30 [] (some emptyEnv) :=
  ⟨claim_C8_amended.1 extStub 30 "3:int" emptyEnv rfl rfl,
   claim_C8_amended.2.1 extStub 30 "3:int" [] (some emptyEnv) "3" "int" []
     rfl,
   claim_C8_amended.2.2 extStub 30 "1" [] (some emptyEnv) "1" rfl⟩
